import Mathlib

/-!
Verification of the request-admission and identity-resolution pipeline of the
repository `micro` (backend/shared middleware).  The definitions below are a
shallow embedding of the Lua rate-limit scripts and of the Python middleware
in `backend/shared/rate_limit_middleware.py`, `backend/shared/auth_middleware.py`,
`backend/shared/session_middleware.py` and `backend/auth/routes.py`.
Time is modelled in whole seconds (`Nat`); the token-bucket refill rate, a
float in the source, is modelled exactly as a rational number.
Store state that the code touches under a single key is modelled as the value
at that key (`Option` of the record type); calls that may raise inside the
source's `try`/`except` blocks take an `Except` argument describing whether
the underlying store call succeeded or raised.
-/

/-! ## Fixed-window strategy (`FIXED_WINDOW_SCRIPT`)

The Redis value at the window key: the current counter and the absolute time
at which the key expires.  The key is live when `now < expiresAt`; Redis
deletes it at its expiry, so an `INCR` at or after `expiresAt` recreates it. -/

structure FWState where
  count : Nat
  expiresAt : Nat
deriving Repr, DecidableEq

/-- One evaluation of `FIXED_WINDOW_SCRIPT` at time `now` on the value stored
under the window key: `INCR`; on a first increment, `EXPIRE key window`;
deny with the key's remaining TTL when the post-increment count exceeds
`limit`, else allow with 0.  Returns (stored value, allowed, script retry). -/
def fixedWindowStep (now window limit : Nat) (st : Option FWState) :
    Option FWState × Bool × Nat :=
  let live : Option FWState :=
    match st with
    | some s => if now < s.expiresAt then some s else none
    | none => none
  match live with
  | none =>
      -- INCR creates the key with count 1; count == 1, so EXPIRE runs
      if 1 > limit then
        (some ⟨1, now + window⟩, false, (now + window) - now)
      else
        (some ⟨1, now + window⟩, true, 0)
  | some s =>
      -- INCR bumps an existing live counter; expiry untouched
      if s.count + 1 > limit then
        (some ⟨s.count + 1, s.expiresAt⟩, false, s.expiresAt - now)
      else
        (some ⟨s.count + 1, s.expiresAt⟩, true, 0)

/-- Folding `fixedWindowStep` over a list of call times, keeping only the
stored state (the shape of repeated requests hitting `_apply_limit`). -/
def fwRunState (window limit : Nat) (ts : List Nat) (st : Option FWState) :
    Option FWState :=
  ts.foldl (fun s t => (fixedWindowStep t window limit s).1) st

/-- The `fixed_window` branch of `_apply_limit`: window 60, limit
`requests_per_minute`; the Python wraps the script's reply as
`bool(allowed), int(ttl or 60)`. -/
def applyLimitFixedWindow (now rpm : Nat) (st : Option FWState) :
    Option FWState × Bool × Nat :=
  let r := fixedWindowStep now 60 rpm st
  (r.1, r.2.1, if r.2.2 = 0 then 60 else r.2.2)

/-! ## Token-bucket strategy (`TOKEN_BUCKET_SCRIPT`) -/

structure TBState where
  tokens : Int
  last : Nat
deriving Repr, DecidableEq

/-- One evaluation of `TOKEN_BUCKET_SCRIPT` at time `now`: refill by
`⌊elapsed * rate⌋` capped at `capacity`; when fewer than one token remains,
deny with `⌈(1 - tokens) / rate⌉` and write nothing; otherwise consume one
token and store the new hash.  Returns (stored value, allowed, wait). -/
def tokenBucketStep (now : Nat) (rate : ℚ) (capacity : Int)
    (st : Option TBState) : Option TBState × Bool × Int :=
  let tokens0 : Int :=
    match st with
    | some s => s.tokens
    | none => capacity
  let last : Nat :=
    match st with
    | some s => s.last
    | none => now
  let elapsed : Int := (now : Int) - (last : Int)
  let refill : Int := Int.floor ((elapsed : ℚ) * rate)
  let tokens1 : Int := min capacity (tokens0 + refill)
  if tokens1 < 1 then
    (st, false, Int.ceil ((1 - (tokens1 : ℚ)) / rate))
  else
    (some ⟨tokens1 - 1, now⟩, true, 0)

/-- The post-refill token count of a `TOKEN_BUCKET_SCRIPT` evaluation:
`min(capacity, tokens + floor(elapsed * rate))` over the stored hash (with
the script's defaults `tokens = capacity`, `last = now` for an absent key). -/
def tbPostRefill (now : Nat) (rate : ℚ) (capacity : Int)
    (st : Option TBState) : Int :=
  let tokens0 : Int :=
    match st with
    | some s => s.tokens
    | none => capacity
  let last : Nat :=
    match st with
    | some s => s.last
    | none => now
  let elapsed : Int := (now : Int) - (last : Int)
  min capacity (tokens0 + Int.floor ((elapsed : ℚ) * rate))

/-- The `token_bucket` branch of `_apply_limit`: rate is
`requests_per_minute / 60`, capacity is `burst_capacity`; the Python wraps
the script's reply as `bool(allowed), max(1, int(wait or 1))`. -/
def applyLimitTokenBucket (now rpm burst : Nat) (st : Option TBState) :
    Option TBState × Bool × Int :=
  let r := tokenBucketStep now ((rpm : ℚ) / 60) (burst : Int) st
  (r.1, r.2.1, max 1 (if r.2.2 = 0 then 1 else r.2.2))

/-! ## Sliding-window fallback strategy

The `else` branch of `_apply_limit` pipelines
`ZREMRANGEBYSCORE key -inf now-60`, `ZCARD`, `ZADD key now now`,
`EXPIRE key 120` and admits when the count taken before the insertion is
below the limit.  The sorted set is modelled as the finite set of its
member timestamps; the key expiry as an absolute time. -/
def slidingWindowStep (now limit : Nat) (s : Finset Nat) :
    (Finset Nat × Nat) × Bool × Nat :=
  let trimmed := s.filter (fun t => now < t + 60)
  ((insert now trimmed, now + 120), decide (trimmed.card < limit), 1)

/-! ## Store-failure skeleton of `_apply_limit`

`_apply_limit` first obtains the Redis client and loads the scripts in one
`try` (returning `(True, 0)` if that raises) and then runs the selected
strategy inside a second `try` with two handlers: `except redis.NoScriptError`
(taken at face value) reloads the scripts and returns the recursive retry's
outcome, and `except Exception` returns `(True, 0)`.  A raise inside the
NoScriptError handler's `_load_scripts` call is not caught by the sibling
`except Exception` clause: it propagates out of `_apply_limit`, and
`dispatch` calls `_apply_limit` with no `try`, so it surfaces as an
unhandled 500. -/

/-- How the strategy evaluation fails, when it fails: the script cache miss
Redis reports as `NoScriptError`, or any other exception. -/
inductive RedisErr where
  | noScript
  | other
deriving Repr, DecidableEq

/-- One level of `_apply_limit`'s control flow.  `getClientLoad` is the
first `try` (client acquisition plus initial script load), `evalOp` the
strategy evaluation, `reload` the `_load_scripts` call inside the
NoScriptError handler, and `rec` the outcome of the recursive retry call.
`.error` on the result models an exception propagating out of
`_apply_limit` (an unhandled 500 at `dispatch`). -/
def applyLimitStep (getClientLoad : Except Unit Unit)
    (evalOp : Except RedisErr (Bool × Int))
    (reload : Except Unit Unit)
    (rec : Except Unit (Bool × Int)) : Except Unit (Bool × Int) :=
  match getClientLoad with
  | .error _ => .ok (true, 0)
  | .ok _ =>
      match evalOp with
      | .ok r => .ok r
      | .error .other => .ok (true, 0)
      | .error .noScript =>
          match reload with
          | .error _ => .error ()
          | .ok _ => rec

/-- Success-path informational headers added by
`GlobalRateLimiterMiddleware.dispatch` after `call_next`. -/
def dispatchSuccessHeaders (rpm now : Nat) : List (String × String) :=
  [("X-RateLimit-Limit", toString rpm),
   ("X-RateLimit-Remaining", "1"),
   ("X-RateLimit-Reset", toString (now + 60))]

/-- Look a header value up by name. -/
def headerValue (name : String) (hs : List (String × String)) : Option String :=
  (hs.find? (fun h => h.1 = name)).map (fun h => h.2)

/-! ## Session store (`SecureSessionMiddleware._get_valid_session` and
`create_and_set_session` in `backend/shared/session_middleware.py`)

The Redis value under `session:{tenant}:{sessionId}` is the JSON session
record; all calls below touch this single key, so the store is modelled as
the value at that key. -/

structure SessionRec where
  tenantId : Nat
  userId : Nat
  ip : String
  userAgent : String
  createdAt : Nat
  expiresAt : Nat
  lastAccessed : Nat
deriving Repr, DecidableEq

/-- `self.session_ttl = 3600` (one hour). -/
def sessionTtl : Nat := 3600

/-- The record built and stored by `create_and_set_session` (the
`session_data` dict, persisted with `SETEX key 3600 ...`). -/
def createSession (tenantId userId : Nat) (ip ua : String) (now : Nat) :
    SessionRec :=
  { tenantId := tenantId, userId := userId, ip := ip, userAgent := ua,
    createdAt := now, expiresAt := now + sessionTtl, lastAccessed := now }

/-- `_get_valid_session` on the value stored under the session key:
absent → none; `expires_at <= now` → delete, none; bound IP ≠ caller IP →
delete, none; otherwise refresh `last_accessed`/`expires_at` and persist
with `SETEX` for `session_ttl` seconds.  Returns
(stored value afterwards, returned session, TTL passed to SETEX if any). -/
def getValidSession (now : Nat) (clientIp : String) (st : Option SessionRec) :
    Option SessionRec × Option SessionRec × Option Nat :=
  match st with
  | none => (none, none, none)
  | some s =>
      if s.expiresAt ≤ now then
        (none, none, none)
      else if s.ip ≠ clientIp then
        (none, none, none)
      else
        let s1 : SessionRec :=
          { s with lastAccessed := now, expiresAt := now + sessionTtl }
        (some s1, some s1, some sessionTtl)

/-! ## JWT validation (`AuthMiddleware._validate_jwt`)

A token is modelled symbolically as its payload together with the secret it
was signed with: `jose.jwt.decode(token, secret)` succeeds exactly when the
token was signed with that secret, and (library behaviour) rejects a token
whose `exp` lies strictly in the past.  `_validate_jwt` then re-checks
`exp`, checks the `type` claim, the revocation record, and requires a
usable `sub` claim. -/

structure Payload where
  exp : Nat
  typ : String
  jti : Option String
  sub : Option String
  email : Option String
  roles : List String
  permissions : List String
deriving Repr, DecidableEq

structure Token where
  signedWith : String
  payload : Payload
deriving Repr, DecidableEq

structure JwtUser where
  id : Int
  email : Option String
  roles : List String
  permissions : List String
  tokenJti : Option String
deriving Repr, DecidableEq

/-- Decimal digits of a candidate integer literal, most significant first. -/
def digitsToNat (cs : List Char) : Option Nat :=
  cs.foldl
    (fun acc c =>
      match acc with
      | none => none
      | some n => if c.isDigit then some (n * 10 + (c.toNat - Char.toNat '0')) else none)
    (some 0)

/-- Python's `int(...)` on the canonical decimal strings produced by
`str(user.id)`: an optional leading minus followed by digits; anything else
raises (`none`). -/
def pyIntParse (s : String) : Option Int :=
  match s.data with
  | [] => none
  | '-' :: rest =>
      if rest = [] then none
      else (digitsToNat rest).map (fun n => -(n : Int))
  | cs => (digitsToNat cs).map (fun n => (n : Int))

/-- `AuthMiddleware._is_token_revoked`: a `jti`-less token is never revoked;
otherwise the existence check on `revoked_token:{jti}`, with the set of
present revocation keys given as a list. -/
def isTokenRevoked (jti : Option String) (revoked : List String) : Bool :=
  match jti with
  | none => false
  | some j => revoked.contains j

/-- `AuthMiddleware._validate_jwt` with the tenant secret already fetched
(`get_jwt_secret` returns `none` on a missing row or a store failure, and
`_validate_jwt` then returns `None` before decoding anything). -/
def validateJwt (secret : Option String) (now : Nat) (revoked : List String)
    (t : Token) : Option JwtUser :=
  match secret with
  | none => none
  | some sec =>
      if t.signedWith ≠ sec then none          -- JWTError from jwt.decode
      else if t.payload.exp < now then none    -- expired (decode + explicit check)
      else if t.payload.typ ≠ "access" then none
      else if isTokenRevoked t.payload.jti revoked then none
      else
        match t.payload.sub with
        | none => none                          -- `if not user_id`
        | some s =>
            if s = "" then none
            else
              match pyIntParse s with
              | none => none                    -- int(user_id) raised
              | some i =>
                  some { id := i, email := t.payload.email,
                         roles := t.payload.roles,
                         permissions := t.payload.permissions,
                         tokenJti := t.payload.jti }

/-! ## Session-based identity (`AuthMiddleware._validate_session`) -/

structure UserRow where
  id : Int
  email : String
  firstName : String
  lastName : String
  isActive : Bool
  roleId : Option Nat
  roleName : String
deriving Repr, DecidableEq

structure SessUser where
  id : Int
  email : String
  isActive : Bool
  roles : List (Nat × String)
  permissions : List (String × String)
deriving Repr, DecidableEq

/-- `AuthMiddleware._get_permissions`: an empty role list short-circuits to
`[]`; otherwise the permissions query runs inside its own `try`, and a
raising store yields `[]` rather than propagating. -/
def getPermissions (roleIds : List Nat)
    (permResult : Except Unit (List (String × String))) :
    List (String × String) :=
  if roleIds = [] then []
  else
    match permResult with
    | .error _ => []
    | .ok ps => ps

/-- `AuthMiddleware._validate_session`: the user/role hydration query runs
inside a `try` whose handler returns `None`; an empty row set or an
inactive first row also yields `None`; otherwise the identity dict is
assembled, with permissions fetched through `getPermissions`. -/
def validateSession (userId : Nat)
    (dbResult : Except Unit (List UserRow))
    (permResult : Except Unit (List (String × String))) : Option SessUser :=
  if userId = 0 then none                       -- `if not user_id`
  else
    match dbResult with
    | .error _ => none                          -- store raised: fail closed
    | .ok rows =>
        match rows with
        | [] => none
        | r0 :: _ =>
            if ¬ r0.isActive then none
            else
              let roleIds := rows.filterMap (fun r => r.roleId)
              some { id := r0.id, email := r0.email, isActive := r0.isActive,
                     roles := rows.filterMap
                       (fun r => r.roleId.map (fun rid => (rid, r.roleName))),
                     permissions := getPermissions roleIds permResult }

/-! ## The auth resolver (`AuthMiddleware.__call__`) -/

inductive AuthOutcome where
  | bypassed
  | authJwt (u : JwtUser)
  | authSession (u : SessUser)
  | rejected (statusCode : Nat)
deriving Repr, DecidableEq

/-- The session middleware's load of `request.state.session`
(`_get_valid_session` runs inside a `try` whose handler returns `None`, so a
raising store yields no session). -/
def loadSession (r : Except Unit (Option SessionRec)) : Option SessionRec :=
  match r with
  | .error _ => none
  | .ok s => s

/-- `AuthMiddleware.__call__`: public paths bypass; otherwise try the bearer
JWT, fall back to the session (when it exists and carries a non-zero
`user_id`), and raise 401 when neither yields a user.  `session` is the
`user_id` of the session attached to `request.state`, if any. -/
def authCall (publicRoute : Bool) (cred : Option Token)
    (secret : Option String) (now : Nat) (revoked : List String)
    (session : Option Nat)
    (dbResult : Except Unit (List UserRow))
    (permResult : Except Unit (List (String × String))) : AuthOutcome :=
  if publicRoute then .bypassed
  else
    match cred.bind (validateJwt secret now revoked) with
    | some u => .authJwt u
    | none =>
        match session with
        | some uid =>
            if uid ≠ 0 then
              match validateSession uid dbResult permResult with
              | some u => .authSession u
              | none => .rejected 401
            else .rejected 401
        | none => .rejected 401

/-! ## Logout revocation (`logout_user` in `backend/auth/routes.py`)

The route decodes the presented bearer token with PyJWT's `jwt.decode`,
whose default options verify the signature and reject a token whose `exp`
is not in the future; any failure is swallowed by a bare `except`.  On
success, a present `jti` is written as `SETEX revoked_token:{jti} 3600 "1"`.
The revocation store is modelled as the list of (jti, TTL) pairs written. -/

/-- PyJWT `jwt.decode` with default options: signature and expiry verified. -/
def pyjwtDecode (secret : String) (now : Nat) (t : Token) : Option Payload :=
  if t.signedWith = secret ∧ now < t.payload.exp then some t.payload else none

/-- The revocation block of `logout_user`, applied to the revocation store. -/
def logoutRevocation (secret : String) (now : Nat) (authHeader : Option Token)
    (revStore : List (String × Nat)) : List (String × Nat) :=
  match authHeader with
  | none => revStore
  | some t =>
      match pyjwtDecode secret now t with
      | none => revStore                        -- bare `except: pass`
      | some p =>
          match p.jti with
          | none => revStore
          | some j => (j, 3600) :: revStore

/-! ## Theorems -/

/-- Any session record returned (and stored) by a valid read carries
`lastAccessed = now` and `expiresAt = now + sessionTtl`. -/
lemma getValidSession_returns_refreshed (now : Nat) (ip : String)
    (st : Option SessionRec) (s' : SessionRec)
    (h : (getValidSession now ip st).2.1 = some s') :
    s'.lastAccessed = now ∧ s'.expiresAt = now + sessionTtl := by
  cases st with
  | none => simp [getValidSession] at h
  | some s =>
      by_cases h1 : s.expiresAt ≤ now
      · simp [getValidSession, h1] at h
      · by_cases h2 : s.ip = ip
        · simp [getValidSession, h1, h2] at h
          cases h
          exact ⟨rfl, rfl⟩
        · simp [getValidSession, h1, h2] at h

/-- C6: a `get` whose caller IP differs from the IP bound at `create`
deletes the stored session and returns none, and a subsequent `get` of the
now-absent record (any time, any IP) also returns none. -/
theorem session_ip_binding (now now2 : Nat) (ip ip2 : String) (s : SessionRec)
    (h : s.ip ≠ ip) :
    getValidSession now ip (some s) = (none, none, none)
    ∧ getValidSession now2 ip2 none = (none, none, none) := by
  refine ⟨?_, rfl⟩
  by_cases he : s.expiresAt ≤ now
  · simp [getValidSession, he]
  · simp [getValidSession, he, h]

/-- Witness for `session_ip_binding` at a concrete mismatching caller IP. -/
theorem session_ip_binding_witness :
    (("10.0.0.1" : String) ≠ "9.9.9.9")
    ∧ getValidSession 50 "9.9.9.9"
        (some ⟨1, 2, "10.0.0.1", "ua", 0, 3600, 0⟩) = (none, none, none)
    ∧ getValidSession 60 "7.7.7.7" none = (none, none, none) := by
  have h := session_ip_binding 50 60 "9.9.9.9" "7.7.7.7"
    ⟨1, 2, "10.0.0.1", "ua", 0, 3600, 0⟩ (by decide)
  exact ⟨by decide, h.1, h.2⟩

/-- C7: a read of a live session with matching IP refreshes
`lastAccessed`/`expiresAt` and persists with a fresh TTL; every record such
a read stores (and every created record) satisfies
`lastAccessed ≤ expiresAt`; `expiresAt` is non-decreasing over successive
valid reads; reading an absent or stale record returns none and leaves no
record behind. -/
theorem session_sliding_expiration (now now2 : Nat) (ip : String)
    (s : SessionRec) :
    (now < s.expiresAt → s.ip = ip →
      getValidSession now ip (some s) =
        (some { s with lastAccessed := now, expiresAt := now + sessionTtl },
         some { s with lastAccessed := now, expiresAt := now + sessionTtl },
         some sessionTtl))
    ∧ (∀ s', (getValidSession now ip (some s)).2.1 = some s' →
        s'.lastAccessed ≤ s'.expiresAt)
    ∧ (∀ tid uid ua,
        (createSession tid uid ip ua now).lastAccessed ≤
          (createSession tid uid ip ua now).expiresAt)
    ∧ (now ≤ now2 →
        ∀ s1, (getValidSession now ip (some s)).2.1 = some s1 →
        ∀ s2, (getValidSession now2 ip (some s1)).2.1 = some s2 →
          s1.expiresAt ≤ s2.expiresAt)
    ∧ getValidSession now ip none = (none, none, none)
    ∧ (s.expiresAt < now → getValidSession now ip (some s) = (none, none, none)) := by
  refine ⟨?_, ?_, ?_, ?_, rfl, ?_⟩
  · intro h1 h2
    have hn : ¬ s.expiresAt ≤ now := by omega
    simp [getValidSession, hn, h2]
  · intro s' h
    have hh := getValidSession_returns_refreshed now ip (some s) s' h
    rw [hh.1, hh.2]
    exact Nat.le_add_right _ _
  · intro tid uid ua
    simp only [createSession]
    exact Nat.le_add_right _ _
  · intro h s1 h1 s2 h2
    have a := getValidSession_returns_refreshed now ip (some s) s1 h1
    have b := getValidSession_returns_refreshed now2 ip (some s1) s2 h2
    rw [a.2, b.2]
    exact Nat.add_le_add_right h _
  · intro h
    simp [getValidSession, Nat.le_of_lt h]

/-- Witness for `session_sliding_expiration`: a live matching read at 150
of a session expiring at 200. -/
theorem session_sliding_expiration_witness :
    ((150 : Nat) < 200 ∧ ("1.1.1.1" : String) = "1.1.1.1")
    ∧ getValidSession 150 "1.1.1.1" (some ⟨1, 5, "1.1.1.1", "ua", 100, 200, 100⟩)
      = (some ⟨1, 5, "1.1.1.1", "ua", 100, 150 + sessionTtl, 150⟩,
         some ⟨1, 5, "1.1.1.1", "ua", 100, 150 + sessionTtl, 150⟩,
         some sessionTtl) := by
  refine ⟨⟨by decide, rfl⟩, ?_⟩
  exact (session_sliding_expiration 150 160 "1.1.1.1"
    ⟨1, 5, "1.1.1.1", "ua", 100, 200, 100⟩).1 (by decide) rfl

/-- C10: the sliding-window fallback inserts the current timestamp whether
the request is admitted or denied, trims exactly the entries at least 60
seconds old, refreshes the key expiry to 120 seconds, admits iff the count
of entries surviving the trim but present before the insertion is below the
limit, and reports a retry-after of 1 in both outcomes. -/
theorem sliding_window_spec (now limit : Nat) (s : Finset Nat) :
    now ∈ (slidingWindowStep now limit s).1.1
    ∧ (∀ t ∈ s, now < t + 60 → t ∈ (slidingWindowStep now limit s).1.1)
    ∧ (∀ t, t + 60 ≤ now → t ∉ (slidingWindowStep now limit s).1.1)
    ∧ (slidingWindowStep now limit s).1.2 = now + 120
    ∧ (slidingWindowStep now limit s).2.1
        = decide ((s.filter (fun t => now < t + 60)).card < limit)
    ∧ (slidingWindowStep now limit s).2.2 = 1 := by
  refine ⟨?_, ?_, ?_, rfl, rfl, rfl⟩
  · simp [slidingWindowStep]
  · intro t ht hlt
    simp [slidingWindowStep, Finset.mem_insert, Finset.mem_filter]
    right
    exact ⟨ht, hlt⟩
  · intro t hle
    simp [slidingWindowStep, Finset.mem_insert, Finset.mem_filter]
    constructor
    · omega
    · intro _
      omega

/-- Witness for `sliding_window_spec`: at time 70 the entry 0 (aged 70s) is
trimmed while 50 (aged 20s) and the new timestamp 70 are present. -/
theorem sliding_window_spec_witness :
    ((0 : Nat) + 60 ≤ 70)
    ∧ (70 : Nat) ∈ (slidingWindowStep 70 2 {0, 50}).1.1
    ∧ (0 : Nat) ∉ (slidingWindowStep 70 2 {0, 50}).1.1
    ∧ (50 : Nat) ∈ (slidingWindowStep 70 2 {0, 50}).1.1 := by
  have h := sliding_window_spec 70 2 {0, 50}
  exact ⟨by decide, h.1, h.2.2.1 0 (by decide), h.2.1 50 (by decide) (by decide)⟩

/-- C9 (code defect per the spec's §9 note): the first admitted call under
limit 60 leaves 59 further admissions in the window, yet the success-path
headers report the constant "1" as X-RateLimit-Remaining. -/
theorem success_remaining_header_hardcoded :
    fixedWindowStep 0 60 60 none = (some ⟨1, 60⟩, true, 0)
    ∧ headerValue "X-RateLimit-Remaining" (dispatchSuccessHeaders 60 0) = some "1"
    ∧ (60 : Nat) - 1 = 59
    ∧ some ("1" : String) ≠ some (toString (59 : Nat)) := by
  refine ⟨rfl, rfl, rfl, by decide⟩

/-- C5 counterexample: with no tenant secret configured, a presented bearer
token does not produce a 500-class configuration error: JWT validation
yields no identity and the resolver rejects with the ordinary 401. -/
theorem missing_secret_counterexample :
    validateJwt none 0 []
      ⟨"k", ⟨100, "access", none, some "7", none, [], []⟩⟩ = none
    ∧ authCall false (some ⟨"k", ⟨100, "access", none, some "7", none, [], []⟩⟩)
        none 0 [] none (.ok []) (.ok [])
      = .rejected 401
    ∧ AuthOutcome.rejected 401 ≠ .rejected 500 := ⟨rfl, rfl, by decide⟩

/-- C5 amended: a missing tenant secret (also the result of a failed secret
lookup) makes `_validate_jwt` yield no identity before decoding anything,
and the request is then rejected 401 as an ordinary credential failure; no
weak/default-secret detection and no 500-class configuration error exist. -/
theorem missing_secret_fails_as_credential_error (t : Token) (now : Nat)
    (revoked : List String) (dbR : Except Unit (List UserRow))
    (permR : Except Unit (List (String × String))) :
    validateJwt none now revoked t = none
    ∧ authCall false (some t) none now revoked none dbR permR
        = .rejected 401 := ⟨rfl, rfl⟩

/-- C8 counterexample: logout decodes the bearer token with expiry
verification on, so an expired token's `jti` is never recorded; and a live
token's revocation record always gets the fixed TTL 3600 even when the
token's remaining lifetime (here 50 seconds) is smaller. -/
theorem logout_revocation_counterexample :
    logoutRevocation "k" 100
      (some ⟨"k", ⟨10, "access", some "abc", none, none, [], []⟩⟩) [] = []
    ∧ logoutRevocation "k" 100
        (some ⟨"k", ⟨150, "access", some "xyz", none, none, [], []⟩⟩) []
        = [("xyz", 3600)]
    ∧ (150 : Nat) - 100 ≠ 3600 := ⟨rfl, rfl, by decide⟩

/-- C8 amended: on logout the presented token is decoded with full
verification (signature and unexpired `exp`); only then is a present `jti`
written as a revocation record, always with the fixed TTL 3600; a failed
decode (wrong key or expired token) or an absent `jti` writes nothing. -/
theorem logout_revocation_spec (secret : String) (now : Nat) (t : Token)
    (rev : List (String × Nat)) :
    (∀ j, t.signedWith = secret → now < t.payload.exp → t.payload.jti = some j →
      logoutRevocation secret now (some t) rev = (j, 3600) :: rev)
    ∧ ((t.signedWith ≠ secret ∨ t.payload.exp ≤ now) →
      logoutRevocation secret now (some t) rev = rev)
    ∧ (t.payload.jti = none → logoutRevocation secret now (some t) rev = rev)
    ∧ logoutRevocation secret now none rev = rev := by
  refine ⟨?_, ?_, ?_, rfl⟩
  · intro j h1 h2 h3
    simp [logoutRevocation, pyjwtDecode, h1, h2, h3]
  · intro h
    have hn : ¬ (t.signedWith = secret ∧ now < t.payload.exp) := by
      rcases h with h | h
      · exact fun hc => h hc.1
      · exact fun hc => by omega
    simp [logoutRevocation, pyjwtDecode, hn]
  · intro h
    by_cases hc : t.signedWith = secret ∧ now < t.payload.exp
    · simp [logoutRevocation, pyjwtDecode, hc, h]
    · simp [logoutRevocation, pyjwtDecode, hc]

/-- Witness for `logout_revocation_spec`: a live, correctly signed token
with `jti` "j1" gets its revocation record with TTL 3600. -/
theorem logout_revocation_spec_witness :
    (("k" : String) = "k") ∧ ((5 : Nat) < 100)
    ∧ logoutRevocation "k" 5
        (some ⟨"k", ⟨100, "access", some "j1", none, none, [], []⟩⟩) []
        = [("j1", 3600)] := by
  have h := logout_revocation_spec "k" 5
    ⟨"k", ⟨100, "access", some "j1", none, none, [], []⟩⟩ []
  exact ⟨rfl, by decide, h.1 "j1" rfl (by decide) rfl⟩

/-- A live fixed-window counter is incremented in place: the expiry survives
untouched, admission compares the post-increment count with the limit, and
a denial reports the remaining TTL. -/
lemma fixedWindowStep_live (now window limit k e : Nat) (h : now < e) :
    fixedWindowStep now window limit (some ⟨k, e⟩)
      = (some ⟨k + 1, e⟩, decide (k + 1 ≤ limit),
         if k + 1 ≤ limit then 0 else e - now) := by
  by_cases hb : k + 1 ≤ limit
  · have hb' : ¬ (k + 1 > limit) := by omega
    simp [fixedWindowStep, h, hb, hb', decide_eq_true hb]
  · have hb' : k + 1 > limit := by omega
    simp [fixedWindowStep, h, hb, hb', decide_eq_false hb]

/-- The first increment creates the counter at 1 and sets the expiry to the
window length. -/
lemma fixedWindowStep_fresh (now window limit : Nat) :
    fixedWindowStep now window limit none
      = (some ⟨1, now + window⟩, decide (1 ≤ limit),
         if 1 ≤ limit then 0 else window) := by
  by_cases hb : 1 ≤ limit
  · have hb' : ¬ (1 > limit) := by omega
    simp [fixedWindowStep, hb, hb', decide_eq_true hb]
  · have hb' : 1 > limit := by omega
    simp [fixedWindowStep, hb, hb', decide_eq_false hb]

/-- Iterating in-window calls only increments the counter; the expiry never
moves after the first increment. -/
lemma fwRunState_live (window limit e : Nat) :
    ∀ (ts : List Nat), (∀ t ∈ ts, t < e) → ∀ k,
      fwRunState window limit ts (some ⟨k, e⟩) = some ⟨k + ts.length, e⟩ := by
  intro ts
  induction ts with
  | nil => intro _ k; simp [fwRunState]
  | cons t ts ih =>
      intro h k
      have ht : t < e := h t (List.mem_cons_self t ts)
      have h' : ∀ x ∈ ts, x < e := fun x hx => h x (List.mem_cons_of_mem t hx)
      simp only [fwRunState, List.foldl_cons]
      rw [fixedWindowStep_live t window limit k e ht]
      have := ih h' (k + 1)
      simp only [fwRunState] at this
      rw [this]
      congr 1
      simp
      omega

/-- C1: under the fixed-window strategy with a 60-second window, the first
call creates the counter at 1 and sets the expiry to 60 seconds (the only
time the expiry is set); `n` further calls inside that window leave the
counter at `n + 1` with the expiry unchanged, so the i-th in-window call is
allowed exactly when `i ≤ limit`; a denied in-window call reports the key's
remaining TTL, which is at most the window length, and `_apply_limit`
passes that TTL through unchanged. -/
theorem fixed_window_spec (limit t0 now : Nat) (ts : List Nat)
    (hts : ∀ t ∈ ts, t < t0 + 60) (h0 : t0 ≤ now) (h1 : now < t0 + 60) :
    fixedWindowStep t0 60 limit none
      = (some ⟨1, t0 + 60⟩, decide (1 ≤ limit), if 1 ≤ limit then 0 else 60)
    ∧ fwRunState 60 limit ts (some ⟨1, t0 + 60⟩) = some ⟨1 + ts.length, t0 + 60⟩
    ∧ fixedWindowStep now 60 limit (some ⟨1 + ts.length, t0 + 60⟩)
      = (some ⟨1 + ts.length + 1, t0 + 60⟩, decide (1 + ts.length + 1 ≤ limit),
         if 1 + ts.length + 1 ≤ limit then 0 else (t0 + 60) - now)
    ∧ (t0 + 60) - now ≤ 60
    ∧ (¬ (1 + ts.length + 1 ≤ limit) →
        (applyLimitFixedWindow now limit (some ⟨1 + ts.length, t0 + 60⟩)).2.2
          = (t0 + 60) - now) := by
  refine ⟨fixedWindowStep_fresh t0 60 limit, fwRunState_live 60 limit (t0 + 60) ts hts 1,
    fixedWindowStep_live now 60 limit (1 + ts.length) (t0 + 60) h1, by omega, ?_⟩
  intro hd
  have hr := fixedWindowStep_live now 60 limit (1 + ts.length) (t0 + 60) h1
  simp only [applyLimitFixedWindow, hr, if_neg hd]
  have : (t0 + 60) - now ≠ 0 := by omega
  simp [this]

/-- Witness for `fixed_window_spec`: limit 2, window start 0, two further
in-window calls, fourth call at 30 denied with TTL 30. -/
theorem fixed_window_spec_witness :
    (∀ t ∈ [10, 20], t < 0 + 60) ∧ ((0 : Nat) ≤ 30) ∧ ((30 : Nat) < 0 + 60)
    ∧ fwRunState 60 2 [10, 20] (some ⟨1, 0 + 60⟩) = some ⟨1 + 2, 0 + 60⟩
    ∧ fixedWindowStep 30 60 2 (some ⟨1 + 2, 0 + 60⟩)
        = (some ⟨1 + 2 + 1, 0 + 60⟩, decide (1 + 2 + 1 ≤ 2),
           if 1 + 2 + 1 ≤ 2 then 0 else (0 + 60) - 30) := by
  have h := fixed_window_spec 2 0 30 [10, 20] (by decide) (by decide) (by decide)
  exact ⟨by decide, by decide, by decide, h.2.1, h.2.2.1⟩

/-- `tokenBucketStep` branches on the post-refill count. -/
lemma tokenBucketStep_eq (now : Nat) (rate : ℚ) (capacity : Int)
    (st : Option TBState) :
    tokenBucketStep now rate capacity st
      = if tbPostRefill now rate capacity st < 1 then
          (st, false,
           Int.ceil ((1 - (tbPostRefill now rate capacity st : ℚ)) / rate))
        else (some ⟨tbPostRefill now rate capacity st - 1, now⟩, true, 0) := by
  cases st <;> rfl

/-- C2: if the stored token count does not exceed the capacity, then after
any check it still does not; a check that finds fewer than one token after
the refill denies, leaves the stored hash exactly as it was, and reports
`wait = ceil((1 - tokens) / rate)`; an admitted check persists exactly the
post-refill count minus one together with the current time. -/
theorem token_bucket_spec (now : Nat) (rate : ℚ) (capacity : Int)
    (st : Option TBState)
    (hinv : ∀ s, st = some s → s.tokens ≤ capacity) :
    (∀ s', (tokenBucketStep now rate capacity st).1 = some s' →
        s'.tokens ≤ capacity)
    ∧ (tbPostRefill now rate capacity st < 1 →
        tokenBucketStep now rate capacity st
          = (st, false,
             Int.ceil ((1 - (tbPostRefill now rate capacity st : ℚ)) / rate)))
    ∧ (1 ≤ tbPostRefill now rate capacity st →
        tokenBucketStep now rate capacity st
          = (some ⟨tbPostRefill now rate capacity st - 1, now⟩, true, 0)) := by
  have key := tokenBucketStep_eq now rate capacity st
  have hT : tbPostRefill now rate capacity st ≤ capacity := by
    cases st <;> simp [tbPostRefill]
  refine ⟨?_, ?_, ?_⟩
  · intro s' hs
    by_cases hc : tbPostRefill now rate capacity st < 1
    · have h' : st = some s' := by
        rw [key] at hs
        simpa [hc] using hs
      exact hinv s' h'
    · have h' : (⟨tbPostRefill now rate capacity st - 1, now⟩ : TBState) = s' := by
        rw [key] at hs
        simpa [hc] using hs
      rw [← h']
      simp only
      omega
  · intro hc
    rw [key, if_pos hc]
  · intro hc
    rw [key, if_neg (by omega)]

/-- Witness for `token_bucket_spec`: an empty bucket (0 tokens just
refilled) at rate 60/60, capacity 2 denies and leaves the hash unchanged. -/
theorem token_bucket_spec_witness :
    (∀ s : TBState, (some ⟨0, 0⟩ : Option TBState) = some s → s.tokens ≤ 2)
    ∧ tbPostRefill 0 ((60 : ℚ) / 60) 2 (some ⟨0, 0⟩) < 1
    ∧ tokenBucketStep 0 ((60 : ℚ) / 60) 2 (some ⟨0, 0⟩)
        = (some ⟨0, 0⟩, false,
           Int.ceil ((1 - (tbPostRefill 0 ((60 : ℚ) / 60) 2 (some ⟨0, 0⟩) : ℚ))
             / ((60 : ℚ) / 60))) := by
  have hinv : ∀ s : TBState, (some ⟨0, 0⟩ : Option TBState) = some s →
      s.tokens ≤ 2 := by
    intro s hs
    cases hs
    decide
  have hT : tbPostRefill 0 ((60 : ℚ) / 60) 2 (some ⟨0, 0⟩) < 1 := by
    simp [tbPostRefill]
  exact ⟨hinv, hT, (token_bucket_spec 0 ((60 : ℚ) / 60) 2 (some ⟨0, 0⟩) hinv).2.1 hT⟩

/-- C4 amended: a bearer JWT yields an identity exactly when its signature
verifies under the tenant's secret, `exp ≥ now`, the `type` claim equals
"access", no revocation record exists for its `jti` (if it carries one),
and its `sub` claim is present, non-empty and parses as an integer; for a
token carrying a `jti`, an existing revocation record always rejects. -/
theorem validate_jwt_iff (sec : String) (now : Nat) (revoked : List String)
    (t : Token) :
    ((∃ u, validateJwt (some sec) now revoked t = some u)
      ↔ (t.signedWith = sec ∧ now ≤ t.payload.exp ∧ t.payload.typ = "access"
         ∧ isTokenRevoked t.payload.jti revoked = false
         ∧ ∃ s i, t.payload.sub = some s ∧ s ≠ "" ∧ pyIntParse s = some i))
    ∧ (∀ j, t.payload.jti = some j → revoked.contains j = true →
        validateJwt (some sec) now revoked t = none) := by
  constructor
  · constructor
    · rintro ⟨u, hu⟩
      by_cases h1 : t.signedWith = sec
      · by_cases h2 : t.payload.exp < now
        · simp [validateJwt, h1, h2] at hu
        · by_cases h3 : t.payload.typ = "access"
          · by_cases h4 : isTokenRevoked t.payload.jti revoked = true
            · simp [validateJwt, h1, h2, h3, h4] at hu
            · have h4' : isTokenRevoked t.payload.jti revoked = false := by
                revert h4
                cases isTokenRevoked t.payload.jti revoked <;> simp
              refine ⟨h1, by omega, h3, h4', ?_⟩
              cases hsub : t.payload.sub with
              | none => simp [validateJwt, h1, h2, h3, h4', hsub] at hu
              | some s =>
                  by_cases hs : s = ""
                  · simp [validateJwt, h1, h2, h3, h4', hsub, hs] at hu
                  · cases hp : pyIntParse s with
                    | none =>
                        simp [validateJwt, h1, h2, h3, h4', hsub, hs, hp] at hu
                    | some i => exact ⟨s, i, rfl, hs, hp⟩
          · simp [validateJwt, h1, h2, h3] at hu
      · simp [validateJwt, h1] at hu
    · rintro ⟨h1, h2, h3, h4, s, i, hsub, hs, hp⟩
      refine ⟨⟨i, t.payload.email, t.payload.roles, t.payload.permissions,
        t.payload.jti⟩, ?_⟩
      have h2' : ¬ (t.payload.exp < now) := by omega
      simp [validateJwt, h1, h2', h3, h4, hsub, hs, hp]
  · intro j hj hr
    have hrev : isTokenRevoked t.payload.jti revoked = true := by
      simp [isTokenRevoked, hj]
      simpa using hr
    by_cases h1 : t.signedWith = sec
    · by_cases h2 : t.payload.exp < now
      · simp [validateJwt, h1, h2]
      · by_cases h3 : t.payload.typ = "access"
        · simp [validateJwt, h1, h2, h3, hrev]
        · simp [validateJwt, h1, h2, h3]
    · simp [validateJwt, h1]

/-- Witness for `validate_jwt_iff`: a well-formed unexpired token is
accepted with no revocation record and rejected once `revoked_token:j`
exists. -/
theorem validate_jwt_iff_witness :
    (∃ u, validateJwt (some "k") 50 []
      ⟨"k", ⟨100, "access", some "j", some "7", some "e", ["r"], ["p"]⟩⟩
        = some u)
    ∧ validateJwt (some "k") 50 ["j"]
      ⟨"k", ⟨100, "access", some "j", some "7", some "e", ["r"], ["p"]⟩⟩
        = none := by
  have h1 := validate_jwt_iff "k" 50 []
    ⟨"k", ⟨100, "access", some "j", some "7", some "e", ["r"], ["p"]⟩⟩
  have h2 := validate_jwt_iff "k" 50 ["j"]
    ⟨"k", ⟨100, "access", some "j", some "7", some "e", ["r"], ["p"]⟩⟩
  exact ⟨h1.1.mpr ⟨rfl, by decide, rfl, by decide, "7", 7, rfl, by decide, by decide⟩,
         h2.2 "j" rfl (by decide)⟩

/-- C4 counterexample: a token that satisfies every condition the claim
lists (valid signature, future `exp`, type "access", `jti` not revoked)
but carries no `sub` claim yields no identity, so the claim's "if and only
if" fails in the code. -/
theorem validate_jwt_counterexample :
    (Token.mk "k" ⟨100, "access", some "j", none, none, [], []⟩).signedWith = "k"
    ∧ (50 : Nat) < (Token.mk "k" ⟨100, "access", some "j", none, none, [], []⟩).payload.exp
    ∧ (Token.mk "k" ⟨100, "access", some "j", none, none, [], []⟩).payload.typ = "access"
    ∧ isTokenRevoked
        (Token.mk "k" ⟨100, "access", some "j", none, none, [], []⟩).payload.jti [] = false
    ∧ validateJwt (some "k") 50 []
        (Token.mk "k" ⟨100, "access", some "j", none, none, [], []⟩) = none := by
  refine ⟨rfl, by decide, rfl, rfl, rfl⟩

/-- A session-based identity assembled while the permissions query raises
always carries an empty permission list. -/
lemma validateSession_perm_error (uid : Nat)
    (dbR : Except Unit (List UserRow)) (u : SessUser)
    (h : validateSession uid dbR (.error ()) = some u) :
    u.permissions = [] := by
  by_cases h0 : uid = 0
  · simp [validateSession, h0] at h
  · cases dbR with
    | error e => simp [validateSession, h0] at h
    | ok rows =>
        cases rows with
        | nil => simp [validateSession, h0] at h
        | cons r0 rest =>
            by_cases ha : r0.isActive = true
            · simp [validateSession, h0, ha] at h
              subst h
              show getPermissions _ (.error ()) = []
              unfold getPermissions
              split <;> rfl
            · simp [validateSession, h0, ha] at h
/-- C3 amended: the rate limiter fails open when the store raises at
client acquisition/script load or when the strategy evaluation raises an
ordinary exception, and a NoScriptError with a successful handler reload
returns the retry's outcome — but a store raise inside that handler's
script reload propagates out of `_apply_limit` unhandled (a 500, not an
admission); identity resolution fails closed for the session load and the
user-row hydration — either raising ends in the uniform 401 — while a
raising permissions lookup is swallowed: the request is then admitted as
the session user with an empty permission list. -/
theorem fail_open_closed_spec (secret : Option String) (now : Nat)
    (revoked : List String) (uid : Nat) (huid : uid ≠ 0)
    (evalOp : Except RedisErr (Bool × Int)) (reload : Except Unit Unit)
    (rec : Except Unit (Bool × Int)) (r : Bool × Int)
    (dbR : Except Unit (List UserRow))
    (permR : Except Unit (List (String × String))) :
    applyLimitStep (.error ()) evalOp reload rec = .ok (true, 0)
    ∧ applyLimitStep (.ok ()) (.error .other) reload rec = .ok (true, 0)
    ∧ applyLimitStep (.ok ()) (.error .noScript) (.ok ()) rec = rec
    ∧ applyLimitStep (.ok ()) (.error .noScript) (.error ()) rec = .error ()
    ∧ applyLimitStep (.ok ()) (.ok r) reload rec = .ok r
    ∧ loadSession (.error ()) = none
    ∧ authCall false none secret now revoked none dbR permR = .rejected 401
    ∧ authCall false none secret now revoked (some uid) (.error ()) permR
        = .rejected 401
    ∧ (∀ u, authCall false none secret now revoked (some uid) dbR (.error ())
          = .authSession u → u.permissions = []) := by
  refine ⟨rfl, rfl, rfl, rfl, rfl, rfl, rfl, ?_, ?_⟩
  · simp [authCall, validateSession, huid]
  · intro u hu
    simp only [authCall, if_neg (by simp : ¬ False), Option.bind] at hu
    rw [if_pos huid] at hu
    cases hv : validateSession uid dbR (Except.error ()) with
    | none => rw [hv] at hu; cases hu
    | some w =>
        rw [hv] at hu
        cases hu
        exact validateSession_perm_error uid dbR u hv

/-- Witness for `fail_open_closed_spec` at user id 5 with an erroring
hydration query. -/
theorem fail_open_closed_spec_witness :
    ((5 : Nat) ≠ 0)
    ∧ applyLimitStep (.error ()) (.ok (false, 3)) (.ok ()) (.ok (true, 0))
        = .ok (true, 0)
    ∧ authCall false none (some "k") 0 [] (some 5) (.error ()) (.ok [])
        = .rejected 401 := by
  have h := fail_open_closed_spec (some "k") 0 [] 5 (by decide)
    (.ok (false, 3)) (.ok ()) (.ok (true, 0)) (false, 3) (.error ()) (.ok [])
  exact ⟨by decide, h.1, h.2.2.2.2.2.2.2.1⟩

/-- C3 counterexample, one concrete store raise on each side of the claim:
a NoScriptError whose handler reload then raises propagates out of
`_apply_limit` (an unhandled 500, not an admission), and a store failure
inside the permissions lookup while validating a session-based identity
does not reject the request — the resolver yields the hydrated user (roles
intact, permissions empty) and the request is admitted. -/
theorem fail_policy_counterexample :
    applyLimitStep (.ok ()) (.error .noScript) (.error ()) (.ok (true, 0))
      = .error ()
    ∧ authCall false none (some "k") 0 [] (some 5)
        (.ok [⟨7, "a@b", "A", "B", true, some 3, "admin"⟩])
        (.error ())
        = .authSession ⟨7, "a@b", true, [(3, "admin")], []⟩ := ⟨rfl, rfl⟩
